import Mathlib

set_option maxRecDepth 8000

/-!
Verification of the agent-browser tool-generation backend core
(`app/services/session_service.py`, `app/utils/codex_utils.py`, `app/api/jobs.py`)
against its natural-language specification.

The Python code is shallowly embedded: the side effects of each operation
(repository writes, websocket publishes, subprocess management) are recorded as
ordered action traces, and the persisted session document is an explicit record
that traces are folded over.  The session repository implementation is not part
of the source tree (only its callers are), so its contract is modelled from the
specification where marked.
-/

namespace AgentBrowser

/-- Session workflow status enumeration, from `SessionStatus` in
`app/models/session.py` (a Python `str` enum with seven values). -/
inductive SessionStatus where
  | pending
  | planning
  | searching
  | implementing
  | executing
  | completed
  | failed
deriving DecidableEq, Repr

/-- String value of a status (`.value` on the Python `str` enum). -/
def SessionStatus.value : SessionStatus → String
  | .pending => "pending"
  | .planning => "planning"
  | .searching => "searching"
  | .implementing => "implementing"
  | .executing => "executing"
  | .completed => "completed"
  | .failed => "failed"

/-- Terminal statuses of the workflow state machine (`completed`, `failed`). -/
def SessionStatus.isTerminal : SessionStatus → Bool
  | .completed => true
  | .failed => true
  | _ => false

/-- Position of a status along the poller-visible chain
`pending < implementing < \x7bcompleted, failed\x7d`; the three reserved
intermediate phases sit between `pending` and `implementing`'s rank and the
terminal rank in declaration order. -/
def SessionStatus.rank : SessionStatus → Nat
  | .pending => 0
  | .planning => 1
  | .searching => 2
  | .implementing => 3
  | .executing => 4
  | .completed => 5
  | .failed => 5

/-- Payload of a `status-update` websocket message, built in
`SessionService._update_session_status`. -/
structure StatusEvent where
  type : String
  status : String
  timestamp : Nat
  error : Option String
deriving DecidableEq, Repr

/-- One observable side effect of the session service, in program order. -/
inductive Action where
  /-- `session_repo.update_status(session_id, status, error_message)`. -/
  | persistStatus (status : SessionStatus) (error : Option String)
  /-- websocket notification carrying a `status-update` payload. -/
  | publishStatus (ev : StatusEvent)
  /-- websocket notification of any other type (`session-cancelled`,
  `tools-generated`, `processing-completed`). -/
  | publishOther (type : String)
  /-- `session_repo.add_tool(session_id, tool_spec)`; the generated tool
  record is kept as its name and code text. -/
  | addTool (name : String) (code : String)
deriving DecidableEq, Repr

/-- Persisted session document, restricted to the fields the claims are about
(`requirement`, `status`, `error_message`, and the generated tool list). -/
structure SessionRec where
  requirement : String
  status : SessionStatus
  error : Option String
  tools : List (String × String)
deriving DecidableEq, Repr

/-- Modelled from the spec: the session repository implementation is absent
from the source tree, so the store adapter contract of spec section 4.3 is used:
`update_status` atomically sets status and error message (unconditionally, with
no guard on the previous status) and `add_tool` appends one record; publishes
do not change the document. -/
def applyAction (s : SessionRec) : Action → SessionRec
  | .persistStatus st err => { s with status := st, error := err }
  | .addTool n c => { s with tools := s.tools ++ [(n, c)] }
  | .publishStatus _ => s
  | .publishOther _ => s

/-- Fold a trace of service actions over a session document. -/
def applyActions (s : SessionRec) (l : List Action) : SessionRec :=
  l.foldl applyAction s

/-- Trace of `SessionService._update_session_status`: persist the status first,
then (when a websocket manager is configured) publish exactly one
`status-update` event carrying the same status and error. -/
def updateSessionStatus (hasWs : Bool) (ts : Nat) (st : SessionStatus)
    (err : Option String) : List Action :=
  [.persistStatus st err] ++
    (if hasWs then [.publishStatus ⟨"status-update", st.value, ts, err⟩] else [])

/-- Trace of `SessionService._notify_session_update` for a non-status message
(delivery failures are swallowed inside the Python helper). -/
def notifyOther (hasWs : Bool) (type : String) : List Action :=
  if hasWs then [.publishOther type] else []

/-! ## Process runner (`_run_codex_command` in `app/utils/codex_utils.py`) -/

/-- Behaviour of the external environment for one `_run_codex_command` call:
whether the executable resolves, and how the spawned process behaves. -/
inductive ProcBehaviour where
  /-- `shutil.which` fails and none of the probed common paths exist:
  no process is spawned at all. -/
  | notFound
  /-- `asyncio.create_subprocess_exec` raises; the exception text is kept. -/
  | spawnRaises (msg : String)
  /-- the process finishes within the timeout with exit code `rc` and the
  given captured stdout/stderr. -/
  | finishes (rc : Int) (stdout stderr : String)
  /-- `communicate` exceeds the timeout; the process had produced the given
  (never read) partial output by then. -/
  | hangs (partialStdout partialStderr : String)
deriving DecidableEq, Repr

/-- Result dictionary of `_run_codex_command`; keys that a branch omits are
`none`. -/
structure RunResult where
  success : Bool
  error : Option String
  stdout : String
  stderr : String
  returncode : Option Int
deriving DecidableEq, Repr

/-- Process-management side effects of one `_run_codex_command` call. -/
inductive ProcAction where
  | spawn
  | terminate
  | wait
deriving DecidableEq, Repr

/-- Timeout error text (`f"Command timed out after \x7btimeout\x7d seconds"`). -/
def timeoutMessage (timeout : Nat) : String :=
  "Command timed out after " ++ toString timeout ++ " seconds"

/-- Launch failure error text from `_run_codex_command`. -/
def launchFailureMessage : String :=
  "Codex executable not found in PATH or common locations"

/-- Non-zero exit error text
(`f"Command failed with return code \x7bprocess.returncode\x7d"`). -/
def returnCodeMessage (rc : Int) : String :=
  "Command failed with return code " ++ toString rc

/-- Embedding of `_run_codex_command`: returns the result dictionary together
with the ordered process-management actions performed.  On timeout the code
calls `process.terminate()` and then awaits `process.wait()`, and returns empty
strings in the stdout/stderr slots. -/
def runCodexCommand (b : ProcBehaviour) (timeout : Nat) :
    RunResult × List ProcAction :=
  match b with
  | .notFound =>
      (⟨false, some launchFailureMessage, "", "", none⟩, [])
  | .spawnRaises msg =>
      (⟨false, some msg, "", "", none⟩, [])
  | .finishes rc out err =>
      if rc = 0 then
        (⟨true, none, out, err, some rc⟩, [.spawn])
      else
        (⟨false, some (returnCodeMessage rc), out, err, some rc⟩, [.spawn])
  | .hangs _ _ =>
      (⟨false, some (timeoutMessage timeout), "", "", none⟩,
        [.spawn, .terminate, .wait])

/-! ## String-embedded job metadata (`app/api/jobs.py` and
`SessionService._process_job_requirements`)

The job submission endpoint serialises structured data into the session's
free-text `requirement` field, and the workflow later recovers it with
`re.search` and `ast.literal_eval`.  The regexes are embedded as explicit
scanning functions over character lists with exactly the semantics of the
patterns used in the source (leftmost match, lazy `.*?` bounded by an anchor or
a following literal, greedy `+`). -/

/-- One inbound `ToolRequirement` from the job submission request body
(three free-text fields). -/
structure ToolReqInput where
  description : String
  input : String
  output : String
deriving DecidableEq, Repr

/-- One entry of the parsed structured-requirements list: the variable parts of
the `structured_req` dictionary built in `submit_tool_generation_job` (the
generated per-tool name plus the three user texts; the remaining dictionary
keys are fixed scaffolding). -/
structure StructReq where
  name : String
  description : String
  paramDescription : String
  returnDescription : String
deriving DecidableEq, Repr

/-- CPython `repr` of a `str`, modelled for texts made of printable ASCII
characters containing neither a single quote nor a backslash: for those the
repr is the text wrapped in single quotes.  All theorems about the round trip
restrict the user texts to this class. -/
def pyReprStr (s : String) : String :=
  "'" ++ s ++ "'"

/-- A text is in the class on which `pyReprStr` models CPython `repr`. -/
def textSafe (s : String) : Prop :=
  ∀ c ∈ s.data, c ≠ '\'' ∧ c ≠ '\\' ∧ 32 ≤ c.toNat ∧ c.toNat ≤ 126

instance (s : String) : Decidable (textSafe s) := by
  unfold textSafe; infer_instance

/-- All three texts of a tool requirement are in the modelled class. -/
def reqSafe (t : ToolReqInput) : Prop :=
  textSafe t.description ∧ textSafe t.input ∧ textSafe t.output

instance (t : ToolReqInput) : Decidable (reqSafe t) := by
  unfold reqSafe; infer_instance

/-- Python `repr` of one pydantic `ToolRequirement` object
(`ToolRequirement(description='...', input='...', output='...')`). -/
def toolReqRepr (t : ToolReqInput) : String :=
  "ToolRequirement(description=" ++ pyReprStr t.description ++
    ", input=" ++ pyReprStr t.input ++ ", output=" ++ pyReprStr t.output ++ ")"

/-- Python `str` of the list `request.toolRequirements` (list repr: brackets
and `", "` separators around element reprs). -/
def toolListRepr (reqs : List ToolReqInput) : String :=
  "[" ++ String.intercalate ", " (reqs.map toolReqRepr) ++ "]"

/-- Characters of the Python `str` of the `structured_req` dictionary built for
the tool numbered `name` (insertion-ordered keys, values repr'd; literal braces
written with escapes). -/
def structItemChars (name d i o : String) : List Char :=
  "\x7b'name': '".data ++ name.data ++ "'".data ++
  ", 'description': '".data ++ d.data ++ "'".data ++
  ", 'params': [\x7b'name': 'input_data', 'type': 'str', 'description': '".data
    ++ i.data ++ "'".data ++
  "\x7d], 'returns': \x7b'type': 'Dict[str, Any]', 'description': '".data
    ++ o.data ++ "'".data ++ "\x7d\x7d".data

/-- Characters of the comma-separated structured dictionaries, numbering the
tools `tool_k, tool_(k+1), ...` (the endpoint numbers from `tool_1`). -/
def structItemsChars : Nat → List ToolReqInput → List Char
  | _, [] => []
  | k, t :: ts =>
      structItemChars ("tool_" ++ toString k) t.description t.input t.output ++
        (match ts with
          | [] => []
          | _ => ", ".data ++ structItemsChars (k + 1) ts)

/-- Python `str` of the `structured_requirements` list. -/
def structListRepr (reqs : List ToolReqInput) : String :=
  String.mk ('[' :: (structItemsChars 1 reqs ++ [']']))

/-- The structured-requirements value built by `submit_tool_generation_job`,
numbering from `tool_k`. -/
def structuredFrom : Nat → List ToolReqInput → List StructReq
  | _, [] => []
  | k, t :: ts =>
      ⟨"tool_" ++ toString k, t.description, t.input, t.output⟩ ::
        structuredFrom (k + 1) ts

/-- The structured-requirements value for a request (numbered from `tool_1`). -/
def structuredOf (reqs : List ToolReqInput) : List StructReq :=
  structuredFrom 1 reqs

/-- The `requirement` string stored on the session by
`submit_tool_generation_job` (its f-string, with `str` applied to the two
lists). -/
def buildRequirement (jobId : String) (reqs : List ToolReqInput) : String :=
  "Job ID: " ++ jobId ++ " - Generate " ++ toString reqs.length ++
    " tools - Tool Requirements: " ++ toolListRepr reqs ++
    " - Structured Requirements: " ++ structListRepr reqs

/-- Everything in the built requirement before the final
`"Structured Requirements: "` sentinel. -/
def reqBefore (jobId : String) (reqs : List ToolReqInput) : String :=
  "Job ID: " ++ jobId ++ " - Generate " ++ toString reqs.length ++
    " tools - Tool Requirements: " ++ toolListRepr reqs ++ " - "

/-! ### Regex extraction (`SessionService._process_job_requirements`) -/

/-- Literal part of the pattern `r"Job ID: (job_[a-f0-9]+)"`. -/
def jobIdPat : List Char := "Job ID: job_".data

/-- Character class `[a-f0-9]` of the job-id pattern. -/
def isHexLower (c : Char) : Bool :=
  ('0' ≤ c && c ≤ '9') || ('a' ≤ c && c ≤ 'f')

/-- Scanner for `re.search(r"Job ID: (job_[a-f0-9]+)", s)`: leftmost position
where the literal matches with at least one hex character following; the greedy
`+` takes the longest hex run. -/
def extractJobIdAux : List Char → Option (List Char)
  | [] => none
  | s@(_ :: rest) =>
      if jobIdPat.isPrefixOf s then
        let hex := (s.drop jobIdPat.length).takeWhile isHexLower
        if hex = [] then extractJobIdAux rest
        else some ("job_".data ++ hex)
      else extractJobIdAux rest

/-- Group 1 of `re.search(r"Job ID: (job_[a-f0-9]+)", requirement)`. -/
def extractJobId (s : String) : Option String :=
  (extractJobIdAux s.data).map String.mk

/-- Literal part of the tool-requirements pattern. -/
def toolPatBr : List Char := "Tool Requirements: [".data

/-- Literal that must follow the lazily matched bracket group. -/
def afterToolPat : List Char := " - Structured Requirements:".data

/-- Position of the first `']'` that is immediately followed by
`" - Structured Requirements:"` (the shortest extension the lazy `.*?`
accepts). -/
def findCloseAux : List Char → Option Nat
  | [] => none
  | c :: rest =>
      if c = ']' ∧ afterToolPat.isPrefixOf rest then some 0
      else (findCloseAux rest).map (· + 1)

/-- Scanner for
`re.search(r"Tool Requirements: (\[.*?\]) - Structured Requirements:", s,
re.DOTALL)`: leftmost occurrence of the literal followed by `[` from which a
closing `]` with the trailing literal is reachable. -/
def extractToolReqAux : List Char → Option (List Char)
  | [] => none
  | s@(_ :: rest) =>
      if toolPatBr.isPrefixOf s then
        match findCloseAux (s.drop toolPatBr.length) with
        | some k => some ('[' :: ((s.drop toolPatBr.length).take k ++ [']']))
        | none => extractToolReqAux rest
      else extractToolReqAux rest

/-- Group 1 of the tool-requirements search. -/
def extractToolReq (s : String) : Option String :=
  (extractToolReqAux s.data).map String.mk

/-- Sentinel literal of the structured-requirements pattern. -/
def structPat : List Char := "Structured Requirements: ".data

/-- Scanner for
`re.search(r"Structured Requirements: (\[.*?\])$", s, re.DOTALL)`: leftmost
occurrence of the sentinel followed by `[`; with the `$` anchor the lazy group
must run to the end of the string, so it matches exactly when the string's last
character is `]` (the strings built here never end in a newline, so `$` is
end-of-string). -/
def extractStructReqAux : List Char → Option (List Char)
  | [] => none
  | s@(_ :: rest) =>
      if structPat.isPrefixOf s then
        let g := s.drop structPat.length
        if g.head? = some '[' ∧ 2 ≤ g.length ∧ g.getLast? = some ']' then
          some g
        else extractStructReqAux rest
      else extractStructReqAux rest

/-- Group 1 of the structured-requirements search. -/
def extractStructReq (s : String) : Option String :=
  (extractStructReqAux s.data).map String.mk

/-- Substring test (used to model Python's `in` on the requirement string and
the Mongo `$regex` filter on a literal pattern). -/
def containsSub : List Char → List Char → Bool
  | p, [] => p.isPrefixOf ([] : List Char)
  | p, s@(_ :: rest) => p.isPrefixOf s || containsSub p rest

/-- Condition of `_process_workflow` line 211: the requirement is a job request
when it contains both `"Job ID:"` and `"Tool Requirements:"`. -/
def isJobRequirement (s : String) : Bool :=
  containsSub "Job ID:".data s.data && containsSub "Tool Requirements:".data s.data

/-- Modelled from the spec: `SessionRepository.find_many` is absent from the
source tree; per the store adapter contract it returns the stored sessions
matching the filter, here the first session whose `requirement` field matches
the case-insensitive literal regex `f"Job ID: \x7bre.escape(job_id)\x7d"`
(`re.escape` is the identity on the word characters a job id consists of).
This embeds `SessionService.get_session_by_job_id` with `limit=1`. -/
def findByJobId (sessions : List SessionRec) (jobId : String) :
    Option SessionRec :=
  sessions.find? fun s =>
    containsSub (("Job ID: " ++ jobId).data.map Char.toLower)
      (s.requirement.data.map Char.toLower)

/-! ### `ast.literal_eval`, restricted to the structured-requirements shape

`literal_eval` is an external library routine; it is modelled by a
recursive-descent reader of exactly the grammar that `str` printed for the
structured-requirements list (the fixed dictionary scaffolding with
single-quoted string values).  On strings of that shape it agrees with
`literal_eval`; on anything else it returns `none`, as `literal_eval` raises on
every string the workflow can pass it that is not of that shape. -/

/-- Consume the given literal prefix. -/
def expectLit (pat s : List Char) : Option (List Char) :=
  if pat.isPrefixOf s then some (s.drop pat.length) else none

/-- Consume characters up to and including the next single quote, returning the
content before it. -/
def takeStr : List Char → Option (List Char × List Char)
  | [] => none
  | c :: rest =>
      if c = '\'' then some ([], rest)
      else (takeStr rest).map fun p => (c :: p.1, p.2)

/-- Read one structured-requirement dictionary. -/
def parseItem (s : List Char) : Option (StructReq × List Char) := do
  let s ← expectLit "\x7b'name': '".data s
  let p ← takeStr s
  let s ← expectLit ", 'description': '".data p.2
  let q ← takeStr s
  let s ← expectLit
    ", 'params': [\x7b'name': 'input_data', 'type': 'str', 'description': '".data
    q.2
  let r ← takeStr s
  let s ← expectLit
    "\x7d], 'returns': \x7b'type': 'Dict[str, Any]', 'description': '".data r.2
  let w ← takeStr s
  let s ← expectLit "\x7d\x7d".data w.2
  pure (⟨String.mk p.1, String.mk q.1, String.mk r.1, String.mk w.1⟩, s)

/-- Read a comma-separated sequence of dictionaries (fuel-bounded; each step
consumes at least one character, so fuel equal to the input length suffices). -/
def parseItems : Nat → List Char → Option (List StructReq × List Char)
  | 0, _ => none
  | fuel + 1, s =>
      match parseItem s with
      | none => none
      | some (it, s1) =>
          if ", ".data.isPrefixOf s1 then
            match parseItems fuel (s1.drop 2) with
            | none => none
            | some (its, s2) => some (it :: its, s2)
          else some ([it], s1)

/-- Model of `ast.literal_eval` on the structured-requirements segment: a
bracketed, comma-separated list of scaffold dictionaries, or the empty list. -/
def parseStructList (s : String) : Option (List StructReq) :=
  match s.data with
  | '[' :: rest =>
      if rest = [']'] then some []
      else
        match parseItems rest.length rest with
        | some (items, [']']) => some items
        | _ => none
  | _ => none

/-! ## Codex implementation wrapper (`execute_codex_implement`) -/

/-- Result dictionary of `execute_codex_implement`; omitted keys are `none`. -/
structure ImplementResult where
  success : Bool
  error : Option String
  stdout : Option String
  stderr : Option String
  outputFile : Option String
deriving DecidableEq, Repr

/-- The expected output path `tools_dir / f"\x7btool_name\x7d.py"`. -/
def expectedOutputFile (toolsDirPath toolName : String) : String :=
  toolsDirPath ++ "/" ++ toolName ++ ".py"

/-- Embedding of `execute_codex_implement`: run the CLI with a 300 second
timeout, then demand that the expected output file exists; a zero exit with a
missing file is reported as its own failure (`"Generated file not found"`),
distinct from the command failure propagated otherwise. -/
def executeCodexImplement (toolName toolsDirPath : String) (b : ProcBehaviour)
    (fileExists : Bool) : ImplementResult :=
  let r := (runCodexCommand b 300).1
  let outputFile := expectedOutputFile toolsDirPath toolName
  if r.success then
    if fileExists then
      ⟨true, none, some r.stdout, none, some outputFile⟩
    else
      ⟨false, some ("Generated file not found: " ++ outputFile),
        some r.stdout, some r.stderr, none⟩
  else
    ⟨false, r.error, none, some r.stderr, none⟩

/-! ## Workflow orchestrator (`SessionService`) -/

/-- How the body of the per-session task ends: normally, with a raised
exception carrying a message, or with a cooperative cancellation observed at a
suspension point. -/
inductive BodyEnd where
  | normal
  | raised (msg : String)
  | cancelledEnd
deriving DecidableEq, Repr

/-- Outcome of the awaited `agent_manager.process_requirement` call in
`_process_with_openai_agent` (success, a failure dictionary, or a
`CancelledError` delivered at the await). -/
inductive AgentOutcome where
  | ok
  | fail (msg : String)
  | cancelledDuring
deriving DecidableEq, Repr

/-- Environment of one `_process_workflow` run: the store lookup result and the
behaviour of every external collaborator the task may await. -/
structure WorkflowEnv where
  sessionId : String
  /-- a `CancelledError` delivered before the session lookup completes. -/
  cancelledEarly : Bool
  session : Option SessionRec
  agent : AgentOutcome
  codex : ProcBehaviour
  /-- a `CancelledError` delivered at the codex await of the job path. -/
  codexCancelled : Bool
  fileExists : Bool
  /-- content of the generated file, `none` when opening it raises. -/
  fileRead : Option String
  toolsDirPath : String
  hasWs : Bool
  ts : Nat
deriving Repr

/-- Combined tool name `f"generated_tools_\x7bjob_id.split('_')[1]\x7d"` from
`generate_tools_from_requirements` (job ids produced by the endpoint always
contain an underscore). -/
def combinedToolName (jobId : String) : String :=
  "generated_tools_" ++ ((jobId.splitOn "_").getD 1 "")

/-- Embedding of `generate_tools_from_requirements`: set `implementing`, run
the codex wrapper, and either append the single combined tool record and set
`completed` (then notify), or set `failed` with the wrapper's error.  All its
internal errors are handled in place, so it ends normally unless the codex
await itself is cancelled. -/
def generateTools (env : WorkflowEnv) (jobId : String) :
    List Action × BodyEnd :=
  let head := updateSessionStatus env.hasWs env.ts .implementing none
  if env.codexCancelled then
    (head, .cancelledEnd)
  else
    let name := combinedToolName jobId
    let r := executeCodexImplement name env.toolsDirPath env.codex env.fileExists
    if r.success then
      let code := env.fileRead.getD "# Generated code file not found"
      (head ++ [.addTool name code] ++
        updateSessionStatus env.hasWs env.ts .completed none ++
        notifyOther env.hasWs "tools-generated", .normal)
    else
      (head ++ updateSessionStatus env.hasWs env.ts .failed r.error, .normal)

/-- Embedding of `_process_job_requirements`: set `implementing`, recover the
job id, the tool-requirements segment and the structured-requirements segment
with the three regex scanners, parse the latter with `literal_eval`, then hand
over to `generate_tools_from_requirements`.  Each recovery failure raises a
`ValueError` whose text the re-raise at the end of the function preserves. -/
def processJobRequirements (env : WorkflowEnv) (requirement : String) :
    List Action × BodyEnd :=
  let head := updateSessionStatus env.hasWs env.ts .implementing none
  match extractJobId requirement with
  | none => (head, .raised "Could not extract job ID from requirement")
  | some jobId =>
      match extractToolReq requirement with
      | none => (head, .raised "Could not extract tool requirements from requirement")
      | some _ =>
          match extractStructReq requirement with
          | none =>
              (head, .raised "Could not extract structured requirements from requirement")
          | some seg =>
              match parseStructList seg with
              | none => (head, .raised "Could not parse structured requirements")
              | some _ =>
                  let g := generateTools env jobId
                  (head ++ g.1, g.2)

/-- Embedding of `_process_with_openai_agent`: set `implementing`, await the
agent, notify on success, raise `RuntimeError` with the agent's error text on
failure. -/
def processWithAgent (env : WorkflowEnv) : List Action × BodyEnd :=
  let head := updateSessionStatus env.hasWs env.ts .implementing none
  match env.agent with
  | .ok => (head ++ notifyOther env.hasWs "processing-completed", .normal)
  | .fail m => (head, .raised ("Agent processing failed: " ++ m))
  | .cancelledDuring => (head, .cancelledEnd)

/-- The `try` block of `_process_workflow` (lines 202-220): look the session
up, dispatch on the job marker, and append the `completed` transition after the
non-job path returns. -/
def workflowBody (env : WorkflowEnv) : List Action × BodyEnd :=
  if env.cancelledEarly then ([], .cancelledEnd)
  else
    match env.session with
    | none => ([], .raised ("Session not found: " ++ env.sessionId))
    | some s =>
        if isJobRequirement s.requirement then
          processJobRequirements env s.requirement
        else
          let a := processWithAgent env
          match a.2 with
          | .normal =>
              (a.1 ++ updateSessionStatus env.hasWs env.ts .completed none, .normal)
          | e => (a.1, e)

/-- Embedding of `_process_workflow`: the task body with its
`except asyncio.CancelledError` / `except Exception` handlers, each of which
performs one `failed` transition, and the unconditional `finally` cleanup of
the active-workflow registry.  Every environment yields a trace and a final
registry: nothing escapes the handlers (the repository operations are
modelled, per the spec's store contract, as non-raising).  Returns the action
trace and the registry after cleanup. -/
def processWorkflow (env : WorkflowEnv) (registry : List String) :
    List Action × List String :=
  let b := workflowBody env
  let trace :=
    match b.2 with
    | .normal => b.1
    | .raised m => b.1 ++ updateSessionStatus env.hasWs env.ts .failed (some m)
    | .cancelledEnd =>
        b.1 ++ updateSessionStatus env.hasWs env.ts .failed (some "Workflow cancelled")
  (trace, registry.filter (· ≠ env.sessionId))

/-- Embedding of `cancel_session`: cancel and drop a tracked task if present,
then write `failed` with `f"Cancelled: \x7breason\x7d"` through the repository
directly (note: not through `_update_session_status`, so no `status-update`
event), and send a `session-cancelled` notification when the write succeeded.
The write succeeds exactly when the session exists (store contract).  Returns
the action trace, the new registry, and the boolean result. -/
def cancelSession (sessionExists : Bool) (registry : List String)
    (sessionId reason : String) (hasWs : Bool) :
    List Action × List String × Bool :=
  let reg := registry.filter (· ≠ sessionId)
  let trace := [Action.persistStatus .failed (some ("Cancelled: " ++ reason))] ++
    (if sessionExists then notifyOther hasWs "session-cancelled" else [])
  (trace, reg, sessionExists)

/-- Specification-side description of how a `_process_workflow` run fails: the
error message of the single terminal `failed` write its trace contains, or
`none` when the run completes.  Mirrors the handler analysis of the task body;
used only to state theorems. -/
def bodyFailure (env : WorkflowEnv) : Option String :=
  if env.cancelledEarly then some "Workflow cancelled"
  else
    match env.session with
    | none => some ("Session not found: " ++ env.sessionId)
    | some s =>
        if isJobRequirement s.requirement then
          match extractJobId s.requirement with
          | none => some "Could not extract job ID from requirement"
          | some jobId =>
              match extractToolReq s.requirement with
              | none => some "Could not extract tool requirements from requirement"
              | some _ =>
                  match extractStructReq s.requirement with
                  | none => some "Could not extract structured requirements from requirement"
                  | some seg =>
                      match parseStructList seg with
                      | none => some "Could not parse structured requirements"
                      | some _ =>
                          if env.codexCancelled then some "Workflow cancelled"
                          else
                            (executeCodexImplement (combinedToolName jobId)
                              env.toolsDirPath env.codex env.fileExists).error
        else
          match env.agent with
          | .ok => none
          | .fail m => some ("Agent processing failed: " ++ m)
          | .cancelledDuring => some "Workflow cancelled"

/-- Specification-side description of whether a `_process_workflow` run's
generation backend call returned success: the agent call on the plain path,
or (after the metadata recovery steps succeed and no cancellation lands at the
codex await) the codex implementation call on the job path.  Mirrors the
branch analysis of the task body; used only to state theorems. -/
def backendSucceeded (env : WorkflowEnv) : Bool :=
  if env.cancelledEarly then false
  else
    match env.session with
    | none => false
    | some s =>
        if isJobRequirement s.requirement then
          match extractJobId s.requirement with
          | none => false
          | some jobId =>
              match extractToolReq s.requirement with
              | none => false
              | some _ =>
                  match extractStructReq s.requirement with
                  | none => false
                  | some seg =>
                      match parseStructList seg with
                      | none => false
                      | some _ =>
                          !env.codexCancelled &&
                            (executeCodexImplement (combinedToolName jobId)
                              env.toolsDirPath env.codex env.fileExists).success
        else env.agent == .ok

/-! ## Trace observations used by the claims -/

/-- A repository write of a terminal status. -/
def isTerminalPersist : Action → Bool
  | .persistStatus st _ => st.isTerminal
  | _ => false

/-- A published `status-update` event carrying a terminal status. -/
def isTerminalStatusPublish : Action → Bool
  | .publishStatus ev => ev.status == "completed" || ev.status == "failed"
  | _ => false

/-- A `session_repo.add_tool` call. -/
def isAddTool : Action → Bool
  | .addTool _ _ => true
  | _ => false

/-- The sequence of statuses a trace writes to the store, in order. -/
def statusesOf (trace : List Action) : List SessionStatus :=
  trace.filterMap fun a =>
    match a with
    | .persistStatus st _ => some st
    | _ => none

/-- Publish-after-persist pairing: every status write is immediately followed
by exactly one `status-update` publish carrying the same status value and
error, and no `status-update` publish appears without its preceding write. -/
def wellPaired (ts : Nat) : List Action → Bool
  | [] => true
  | .persistStatus st err :: .publishStatus ev :: rest =>
      ev == ⟨"status-update", st.value, ts, err⟩ && wellPaired ts rest
  | .persistStatus _ _ :: _ => false
  | .publishStatus _ :: _ => false
  | _ :: rest => wellPaired ts rest

/-- Ranks along the status chain are non-decreasing (monotone, no
regression). -/
def ranksMonotone : List SessionStatus → Bool
  | [] => true
  | [_] => true
  | a :: b :: rest => decide (a.rank ≤ b.rank) && ranksMonotone (b :: rest)

/-- Scanning check that every `completed` write in a trace is preceded by at
least one tool-record append. -/
def appendBeforeComplete : Bool → List Action → Bool
  | _, [] => true
  | _, .addTool _ _ :: rest => appendBeforeComplete true rest
  | seen, .persistStatus .completed _ :: rest =>
      seen && appendBeforeComplete seen rest
  | seen, _ :: rest => appendBeforeComplete seen rest

/-! ## Helper lemmas -/

theorem isPrefixOf_append_self (p r : List Char) : p.isPrefixOf (p ++ r) = true := by
  induction p with
  | nil => simp [List.isPrefixOf]
  | cons a p ih => simp [List.isPrefixOf, ih]

theorem infix_append_right {p a : List Char} (b : List Char) (h : p <:+: a) :
    p <:+: a ++ b := by
  obtain ⟨s, t, hst⟩ := h
  exact ⟨s, t ++ b, by rw [← hst]; simp⟩

/-! ## Claim theorems: process runner -/

/-- C6: a process-runner invocation that exceeds its timeout yields a failure
result whose error is the distinct timeout message (never equal to the launch
failure message produced when the executable cannot be located, which spawns
nothing), and on timeout the spawned process is terminated and then awaited. -/
theorem c6_timeout_distinct_kind_and_process_reaped (t : Nat) (pout perr : String) :
    (runCodexCommand (.hangs pout perr) t).1.success = false ∧
    (runCodexCommand (.hangs pout perr) t).1.error = some (timeoutMessage t) ∧
    (runCodexCommand (.hangs pout perr) t).2 =
      [.spawn, .terminate, .wait] ∧
    (runCodexCommand .notFound t).1.success = false ∧
    (runCodexCommand .notFound t).1.error = some launchFailureMessage ∧
    (runCodexCommand .notFound t).2 = [] ∧
    timeoutMessage t ≠ launchFailureMessage := by
  refine ⟨rfl, rfl, rfl, rfl, rfl, rfl, ?_⟩
  intro h
  have h3 := congrArg (fun s : String => s.data[2]?) h
  have h4 : (some 'm' : Option Char) = some 'd' := h3
  exact absurd h4 (by decide)

/-- C7 counterexample: on a timeout the run result returns empty stdout and
stderr even though the process had produced output before hanging, so the
captured output of the timeout outcome is dropped, contrary to the claim. -/
theorem c7_counterexample_timeout_drops_output :
    (runCodexCommand (.hangs "partial output" "") 120).1.stdout = "" ∧
    (runCodexCommand (.hangs "partial output" "") 120).1.stderr = "" ∧
    "partial output" ≠ "" := by
  exact ⟨rfl, rfl, by decide⟩

/-- C7 amended: for a launched process that finishes, the result reports
success exactly when the exit code is 0 and carries the full captured stdout
and stderr (also on non-zero exit); on timeout the result is a failure whose
stdout and stderr slots are empty strings rather than the captured output. -/
theorem c7_success_iff_zero_and_output_policy (rc : Int) (out err pout perr : String)
    (t : Nat) :
    ((runCodexCommand (.finishes rc out err) t).1.success = true ↔ rc = 0) ∧
    (runCodexCommand (.finishes rc out err) t).1.stdout = out ∧
    (runCodexCommand (.finishes rc out err) t).1.stderr = err ∧
    (runCodexCommand (.finishes rc out err) t).1.returncode = some rc ∧
    (runCodexCommand (.hangs pout perr) t).1.success = false ∧
    (runCodexCommand (.hangs pout perr) t).1.stdout = "" ∧
    (runCodexCommand (.hangs pout perr) t).1.stderr = "" := by
  by_cases h : rc = 0 <;> simp [runCodexCommand, h]

/-- C8: when the CLI exits with code 0 but the expected output file is absent,
the wrapper reports a failure whose message contains "not found" and is never
the backend-failure message, the session ends `failed` with that message, and
zero generated tool records are appended. -/
theorem c8_missing_output_reported_distinctly
    (sid jobId dir out err : String) (fr : Option String) (ws : Bool) (ts : Nat)
    (s0 : SessionRec) :
    (executeCodexImplement (combinedToolName jobId) dir (.finishes 0 out err)
        false).success = false ∧
    (executeCodexImplement (combinedToolName jobId) dir (.finishes 0 out err)
        false).error =
      some ("Generated file not found: " ++
        expectedOutputFile dir (combinedToolName jobId)) ∧
    "not found".data <:+:
      ("Generated file not found: " ++
        expectedOutputFile dir (combinedToolName jobId)).data ∧
    (∀ rc : Int,
      ("Generated file not found: " ++
        expectedOutputFile dir (combinedToolName jobId)) ≠ returnCodeMessage rc) ∧
    ((generateTools
        ⟨sid, false, some s0, .ok, .finishes 0 out err, false, false, fr, dir,
          ws, ts⟩ jobId).1.countP
      (fun a => match a with | .addTool _ _ => true | _ => false)) = 0 ∧
    (applyActions s0
        (generateTools
          ⟨sid, false, some s0, .ok, .finishes 0 out err, false, false, fr, dir,
            ws, ts⟩ jobId).1).status = .failed ∧
    (applyActions s0
        (generateTools
          ⟨sid, false, some s0, .ok, .finishes 0 out err, false, false, fr, dir,
            ws, ts⟩ jobId).1).error =
      some ("Generated file not found: " ++
        expectedOutputFile dir (combinedToolName jobId)) := by
  refine ⟨rfl, rfl, ?_, ?_, ?_, ?_, ?_⟩
  · have h1 : "not found".data <:+: "Generated file not found: ".data := by decide
    have h2 := infix_append_right (expectedOutputFile dir (combinedToolName jobId)).data h1
    rwa [← String.data_append] at h2
  · intro rc h
    have h3 := congrArg (fun s : String => s.data[0]?) h
    have h4 : (some 'G' : Option Char) = some 'C' := h3
    exact absurd h4 (by decide)
  · cases ws <;> rfl
  · cases ws <;>
      simp [generateTools, executeCodexImplement, runCodexCommand,
        updateSessionStatus, notifyOther, applyActions, applyAction]
  · cases ws <;>
      simp [generateTools, executeCodexImplement, runCodexCommand,
        updateSessionStatus, notifyOther, applyActions, applyAction]

theorem statusesOf_append (a b : List Action) :
    statusesOf (a ++ b) = statusesOf a ++ statusesOf b := by
  simp [statusesOf]

theorem statusesOf_update (ws : Bool) (ts : Nat) (st : SessionStatus)
    (err : Option String) : statusesOf (updateSessionStatus ws ts st err) = [st] := by
  cases ws <;> rfl

theorem statusesOf_notify (ws : Bool) (t : String) :
    statusesOf (notifyOther ws t) = [] := by
  cases ws <;> rfl

theorem statusesOf_cons_addTool (n c : String) (rest : List Action) :
    statusesOf (.addTool n c :: rest) = statusesOf rest := by
  simp [statusesOf]

theorem statusesOf_cons_publishOther (t : String) (rest : List Action) :
    statusesOf (.publishOther t :: rest) = statusesOf rest := by
  simp [statusesOf]

theorem statusesOf_cons_publishStatus (ev : StatusEvent) (rest : List Action) :
    statusesOf (.publishStatus ev :: rest) = statusesOf rest := by
  simp [statusesOf]

/-- C5: in every workflow run, a `completed` status write occurs exactly when
the run's generation backend call succeeded; on the job path every `completed`
write comes only after the combined tool record has been appended; and when
the backend call reports failure, zero tool records are appended and no
`completed` status is ever written. -/
theorem c5_completed_only_after_append (env : WorkflowEnv) (reg : List String) :
    (SessionStatus.completed ∈ statusesOf (processWorkflow env reg).1 ↔
      backendSucceeded env = true) ∧
    (∀ s, env.session = some s → isJobRequirement s.requirement = true →
      appendBeforeComplete false (processWorkflow env reg).1 = true) ∧
    (backendSucceeded env = false →
      (processWorkflow env reg).1.countP isAddTool = 0 ∧
      SessionStatus.completed ∉ statusesOf (processWorkflow env reg).1) := by
  obtain ⟨sid, ce, sess, ag, cdx, cc, fe, fr, dir, ws, ts⟩ := env
  cases ce with
  | true =>
      cases ws <;>
        simp [processWorkflow, workflowBody, backendSucceeded, statusesOf,
          appendBeforeComplete, isAddTool, updateSessionStatus, notifyOther]
  | false =>
      cases sess with
      | none =>
          cases ws <;>
            simp [processWorkflow, workflowBody, backendSucceeded, statusesOf,
              appendBeforeComplete, isAddTool, updateSessionStatus, notifyOther]
      | some s =>
          by_cases hj : isJobRequirement s.requirement = true
          · cases hE : extractJobId s.requirement with
            | none =>
                cases ws <;>
                  simp [processWorkflow, workflowBody, processJobRequirements,
                    backendSucceeded, hj, hE, statusesOf, appendBeforeComplete,
                    isAddTool, updateSessionStatus, notifyOther]
            | some jid =>
                cases hT : extractToolReq s.requirement with
                | none =>
                    cases ws <;>
                      simp [processWorkflow, workflowBody,
                        processJobRequirements, backendSucceeded, hj, hE, hT,
                        statusesOf, appendBeforeComplete, isAddTool,
                        updateSessionStatus, notifyOther]
                | some tseg =>
                    cases hS : extractStructReq s.requirement with
                    | none =>
                        cases ws <;>
                          simp [processWorkflow, workflowBody,
                            processJobRequirements, backendSucceeded, hj, hE,
                            hT, hS, statusesOf, appendBeforeComplete, isAddTool,
                            updateSessionStatus, notifyOther]
                    | some seg =>
                        cases hP : parseStructList seg with
                        | none =>
                            cases ws <;>
                              simp [processWorkflow, workflowBody,
                                processJobRequirements, backendSucceeded, hj,
                                hE, hT, hS, hP, statusesOf,
                                appendBeforeComplete, isAddTool,
                                updateSessionStatus, notifyOther]
                        | some reqs =>
                            cases cc with
                            | true =>
                                cases ws <;>
                                  simp [processWorkflow, workflowBody,
                                    processJobRequirements, generateTools,
                                    backendSucceeded, hj, hE, hT, hS, hP,
                                    statusesOf, appendBeforeComplete, isAddTool,
                                    updateSessionStatus, notifyOther]
                            | false =>
                                by_cases hs :
                                  (executeCodexImplement (combinedToolName jid)
                                    dir cdx fe).success = true
                                · cases ws <;>
                                    simp [processWorkflow, workflowBody,
                                      processJobRequirements, generateTools,
                                      backendSucceeded, hj, hE, hT, hS, hP, hs,
                                      statusesOf, appendBeforeComplete,
                                      isAddTool, updateSessionStatus,
                                      notifyOther]
                                · rw [Bool.not_eq_true] at hs
                                  cases ws <;>
                                    simp [processWorkflow, workflowBody,
                                      processJobRequirements, generateTools,
                                      backendSucceeded, hj, hE, hT, hS, hP, hs,
                                      statusesOf, appendBeforeComplete,
                                      isAddTool, updateSessionStatus,
                                      notifyOther]
          · rw [Bool.not_eq_true] at hj
            cases ag <;> cases ws <;>
              simp [processWorkflow, workflowBody, processWithAgent,
                backendSucceeded, hj, statusesOf, appendBeforeComplete,
                isAddTool, updateSessionStatus, notifyOther]

/-- C5 witness: at a concrete job whose generation call fails (non-zero exit
code), the job-path append-before-complete check holds and the run appends
nothing and never writes `completed`. -/
theorem c5_completed_only_after_append_witness :
    appendBeforeComplete false
      (processWorkflow
        ⟨"s1", false,
          some ⟨buildRequirement "job_abcd1234"
            [⟨"sum two numbers", "two integers", "their sum"⟩], .pending, none,
            []⟩, .ok, .finishes 1 "" "boom", false, false, none, "tools", true,
          0⟩ ["s1"]).1 = true ∧
    (processWorkflow
        ⟨"s1", false,
          some ⟨buildRequirement "job_abcd1234"
            [⟨"sum two numbers", "two integers", "their sum"⟩], .pending, none,
            []⟩, .ok, .finishes 1 "" "boom", false, false, none, "tools", true,
          0⟩ ["s1"]).1.countP isAddTool = 0 ∧
    SessionStatus.completed ∉
      statusesOf
        (processWorkflow
          ⟨"s1", false,
            some ⟨buildRequirement "job_abcd1234"
              [⟨"sum two numbers", "two integers", "their sum"⟩], .pending,
              none, []⟩, .ok, .finishes 1 "" "boom", false, false, none,
            "tools", true, 0⟩ ["s1"]).1 := by
  have h := c5_completed_only_after_append
    ⟨"s1", false,
      some ⟨buildRequirement "job_abcd1234"
        [⟨"sum two numbers", "two integers", "their sum"⟩], .pending, none,
        []⟩, .ok, .finishes 1 "" "boom", false, false, none, "tools", true,
      0⟩ ["s1"]
  refine ⟨h.2.1 _ rfl (by decide), (h.2.2 (by decide)).1, (h.2.2 (by decide)).2⟩

theorem statuses_processWorkflow (env : WorkflowEnv) (reg : List String) :
    statusesOf (processWorkflow env reg).1 = [.failed] ∨
    statusesOf (processWorkflow env reg).1 = [.implementing, .completed] ∨
    statusesOf (processWorkflow env reg).1 = [.implementing, .failed] ∨
    statusesOf (processWorkflow env reg).1 = [.implementing, .implementing, .completed] ∨
    statusesOf (processWorkflow env reg).1 = [.implementing, .implementing, .failed] := by
  obtain ⟨sid, ce, sess, ag, cdx, cc, fe, fr, dir, ws, ts⟩ := env
  cases ce with
  | true =>
      simp [processWorkflow, workflowBody, statusesOf_append, statusesOf_cons_addTool, statusesOf_cons_publishOther, statusesOf_cons_publishStatus, statusesOf_update]
  | false =>
      cases sess with
      | none =>
          simp [processWorkflow, workflowBody, statusesOf_append, statusesOf_cons_addTool, statusesOf_cons_publishOther, statusesOf_cons_publishStatus,
            statusesOf_update]
      | some s =>
          by_cases hj : isJobRequirement s.requirement = true
          · cases hE : extractJobId s.requirement with
            | none =>
                simp [processWorkflow, workflowBody, processJobRequirements, hj,
                  hE, statusesOf_append, statusesOf_cons_addTool, statusesOf_cons_publishOther, statusesOf_cons_publishStatus, statusesOf_update]
            | some jid =>
                cases hT : extractToolReq s.requirement with
                | none =>
                    simp [processWorkflow, workflowBody, processJobRequirements,
                      hj, hE, hT, statusesOf_append, statusesOf_cons_addTool, statusesOf_cons_publishOther, statusesOf_cons_publishStatus, statusesOf_update]
                | some tseg =>
                    cases hS : extractStructReq s.requirement with
                    | none =>
                        simp [processWorkflow, workflowBody,
                          processJobRequirements, hj, hE, hT, hS,
                          statusesOf_append, statusesOf_cons_addTool, statusesOf_cons_publishOther, statusesOf_cons_publishStatus, statusesOf_update]
                    | some seg =>
                        cases hP : parseStructList seg with
                        | none =>
                            simp [processWorkflow, workflowBody,
                              processJobRequirements, hj, hE, hT, hS, hP,
                              statusesOf_append, statusesOf_cons_addTool, statusesOf_cons_publishOther, statusesOf_cons_publishStatus, statusesOf_update]
                        | some reqs =>
                            cases cc with
                            | true =>
                                simp [processWorkflow, workflowBody,
                                  processJobRequirements, generateTools, hj, hE,
                                  hT, hS, hP, statusesOf_append, statusesOf_cons_addTool, statusesOf_cons_publishOther, statusesOf_cons_publishStatus,
                                  statusesOf_update]
                            | false =>
                                by_cases hs :
                                  (executeCodexImplement (combinedToolName jid)
                                    dir cdx fe).success = true
                                · simp [processWorkflow, workflowBody,
                                    processJobRequirements, generateTools, hj,
                                    hE, hT, hS, hP, hs, statusesOf_append, statusesOf_cons_addTool, statusesOf_cons_publishOther, statusesOf_cons_publishStatus,
                                    statusesOf_update, statusesOf_notify]
                                · rw [Bool.not_eq_true] at hs
                                  simp [processWorkflow, workflowBody,
                                    processJobRequirements, generateTools, hj,
                                    hE, hT, hS, hP, hs, statusesOf_append, statusesOf_cons_addTool, statusesOf_cons_publishOther, statusesOf_cons_publishStatus,
                                    statusesOf_update]
          · rw [Bool.not_eq_true] at hj
            cases ag <;>
              simp [processWorkflow, workflowBody, processWithAgent, hj,
                statusesOf_append, statusesOf_cons_addTool, statusesOf_cons_publishOther, statusesOf_cons_publishStatus, statusesOf_update, statusesOf_notify]

/-- C3 counterexample, two divergences: (a) `cancel_session` invoked on a
session that already holds the terminal status `completed` unconditionally
writes `failed`, so a terminal session undergoes a further status transition;
(b) a task whose cancellation is delivered before its first status write
transitions the session straight from `pending` to `failed` with no
`implementing` write, so a poller observes a skipped state. -/
theorem c3_counterexample_cancel_overwrites_terminal :
    SessionStatus.completed.isTerminal = true ∧
    (applyActions
        { requirement := "r", status := .completed, error := none, tools := [] }
        (cancelSession true [] "s1" "User cancelled" true).1).status = .failed ∧
    SessionStatus.failed ≠ SessionStatus.completed ∧
    statusesOf
        (processWorkflow
          ⟨"s1", true, some ⟨"plain requirement", .pending, none, []⟩, .ok,
            .finishes 0 "" "", false, true, none, "tools", true, 0⟩
          ["s1"]).1 = [.failed] ∧
    SessionStatus.implementing ∉
      statusesOf
        (processWorkflow
          ⟨"s1", true, some ⟨"plain requirement", .pending, none, []⟩, .ok,
            .finishes 0 "" "", false, true, none, "tools", true, 0⟩
          ["s1"]).1 := by
  exact ⟨rfl, rfl, by decide, by decide, by decide⟩

/-- C3 amended: the statuses written by the workflow task itself are monotone
along the chain `pending < implementing < terminal` (no regression) and end in
a terminal status; but two of the original conjuncts fail: terminal states are
not protected, since service operations write unconditionally and
`cancel_session` on an already-`completed` session moves it to `failed`; and a
poller can observe skipped states, since a task cancelled before its first
transition writes `failed` straight from `pending` with no `implementing`
(both in the counterexample). -/
theorem c3_workflow_statuses_monotone (env : WorkflowEnv) (reg : List String) :
    ranksMonotone (statusesOf (processWorkflow env reg).1) = true ∧
    ((statusesOf (processWorkflow env reg).1).getLast?.map
      SessionStatus.isTerminal) = some true := by
  rcases statuses_processWorkflow env reg with h | h | h | h | h <;> rw [h] <;>
    exact ⟨by decide, by decide⟩

/-- C9: whatever the environment makes the task body do (success, backend
failure, parse failure, cancellation, or a raised error), the `finally` block
removes the session's handle from the active-task registry, and the removal is
idempotent: removing again changes nothing, and a registry that never held the
key is unchanged. -/
theorem c9_registry_always_cleaned (env : WorkflowEnv) (reg : List String) :
    env.sessionId ∉ (processWorkflow env reg).2 ∧
    (processWorkflow env reg).2.filter (· ≠ env.sessionId) =
      (processWorkflow env reg).2 ∧
    (processWorkflow env ((processWorkflow env reg).2)).2 =
      (processWorkflow env reg).2 := by
  refine ⟨?_, ?_, ?_⟩
  · intro h
    have h2 : env.sessionId ∈ reg.filter (· ≠ env.sessionId) := h
    simp [List.mem_filter] at h2
  · simp [processWorkflow, List.filter_filter]
  · simp [processWorkflow, List.filter_filter]

theorem wellPaired_nil (ts : Nat) : wellPaired ts [] = true := rfl

theorem wellPaired_update (ts : Nat) (st : SessionStatus) (err : Option String)
    (rest : List Action) :
    wellPaired ts
      (.persistStatus st err ::
        .publishStatus ⟨"status-update", st.value, ts, err⟩ :: rest) =
      wellPaired ts rest := by
  simp [wellPaired]

theorem wellPaired_cons_addTool (ts : Nat) (n c : String) (rest : List Action) :
    wellPaired ts (.addTool n c :: rest) = wellPaired ts rest := by
  simp [wellPaired]

theorem wellPaired_cons_publishOther (ts : Nat) (t : String) (rest : List Action) :
    wellPaired ts (.publishOther t :: rest) = wellPaired ts rest := by
  simp [wellPaired]

/-- C4: through `_update_session_status` a status transition persists the
status first and then publishes exactly one `status-update` event of shape
type/status/timestamp/error, and in every workflow trace (with the websocket
manager configured) the status writes and `status-update` publishes are in
strict persist-then-publish pairs: one publish per transition, none without its
preceding committed write. -/
theorem c4_publish_after_persist (env : WorkflowEnv) (reg : List String)
    (hws : env.hasWs = true) :
    (∀ ts st err, updateSessionStatus true ts st err =
      [.persistStatus st err,
        .publishStatus ⟨"status-update", st.value, ts, err⟩]) ∧
    wellPaired env.ts (processWorkflow env reg).1 = true := by
  obtain ⟨sid, ce, sess, ag, cdx, cc, fe, fr, dir, ws, ts⟩ := env
  subst hws
  refine ⟨fun _ _ _ => rfl, ?_⟩
  cases ce with
  | true =>
      simp [processWorkflow, workflowBody, updateSessionStatus, wellPaired_update,
        wellPaired_nil]
  | false =>
      cases sess with
      | none =>
          simp [processWorkflow, workflowBody, updateSessionStatus,
            wellPaired_update, wellPaired_nil]
      | some s =>
          by_cases hj : isJobRequirement s.requirement = true
          · cases hE : extractJobId s.requirement with
            | none =>
                simp [processWorkflow, workflowBody, processJobRequirements, hj,
                  hE, updateSessionStatus, wellPaired_update, wellPaired_nil]
            | some jid =>
                cases hT : extractToolReq s.requirement with
                | none =>
                    simp [processWorkflow, workflowBody, processJobRequirements,
                      hj, hE, hT, updateSessionStatus, wellPaired_update,
                      wellPaired_nil]
                | some tseg =>
                    cases hS : extractStructReq s.requirement with
                    | none =>
                        simp [processWorkflow, workflowBody,
                          processJobRequirements, hj, hE, hT, hS,
                          updateSessionStatus, wellPaired_update, wellPaired_nil]
                    | some seg =>
                        cases hP : parseStructList seg with
                        | none =>
                            simp [processWorkflow, workflowBody,
                              processJobRequirements, hj, hE, hT, hS, hP,
                              updateSessionStatus, wellPaired_update,
                              wellPaired_nil]
                        | some reqs =>
                            cases cc with
                            | true =>
                                simp [processWorkflow, workflowBody,
                                  processJobRequirements, generateTools, hj, hE,
                                  hT, hS, hP, updateSessionStatus,
                                  wellPaired_update, wellPaired_nil]
                            | false =>
                                by_cases hs :
                                  (executeCodexImplement (combinedToolName jid)
                                    dir cdx fe).success = true
                                · simp [processWorkflow, workflowBody,
                                    processJobRequirements, generateTools, hj,
                                    hE, hT, hS, hP, hs, updateSessionStatus,
                                    notifyOther, wellPaired_update,
                                    wellPaired_cons_addTool,
                                    wellPaired_cons_publishOther, wellPaired_nil]
                                · rw [Bool.not_eq_true] at hs
                                  simp [processWorkflow, workflowBody,
                                    processJobRequirements, generateTools, hj,
                                    hE, hT, hS, hP, hs, updateSessionStatus,
                                    wellPaired_update, wellPaired_nil]
          · rw [Bool.not_eq_true] at hj
            cases ag <;>
              simp [processWorkflow, workflowBody, processWithAgent, hj,
                updateSessionStatus, notifyOther, wellPaired_update,
                wellPaired_cons_publishOther, wellPaired_nil]

/-- C4 witness: the pairing holds at a concrete run (agent success path with
the websocket manager configured). -/
theorem c4_publish_after_persist_witness :
    (∀ ts st err, updateSessionStatus true ts st err =
      [.persistStatus st err,
        .publishStatus ⟨"status-update", st.value, ts, err⟩]) ∧
    wellPaired 5
      (processWorkflow
        ⟨"s1", false, some ⟨"plain requirement", .pending, none, []⟩, .ok,
          .finishes 0 "" "", false, true, none, "tools", true, 5⟩ ["s1"]).1 =
      true :=
  c4_publish_after_persist
    ⟨"s1", false, some ⟨"plain requirement", .pending, none, []⟩, .ok,
      .finishes 0 "" "", false, true, none, "tools", true, 5⟩ ["s1"] rfl

theorem executeCodexImplement_success_error (n d : String) (b : ProcBehaviour)
    (fe : Bool) (h : (executeCodexImplement n d b fe).success = true) :
    (executeCodexImplement n d b fe).error = none := by
  cases b with
  | notFound => cases fe <;> simp_all [executeCodexImplement, runCodexCommand]
  | spawnRaises m => cases fe <;> simp_all [executeCodexImplement, runCodexCommand]
  | hangs a b2 => cases fe <;> simp_all [executeCodexImplement, runCodexCommand]
  | finishes rc o e =>
      rcases eq_or_ne rc 0 with h0 | h0 <;> cases fe <;>
        simp_all [executeCodexImplement, runCodexCommand]

/-- C2: the per-session task body is a total function of its environment (no
exception escapes the handlers), every run performs exactly one terminal
status write and exactly one terminal `status-update` publish, and whenever
the run fails (`bodyFailure` gives the failing message, covering internal
errors, parse errors, backend errors and cancellation) that unique terminal
write is `failed` carrying exactly that message. -/
theorem c2_errors_one_terminal_transition (env : WorkflowEnv) (reg : List String)
    (hws : env.hasWs = true) :
    ((processWorkflow env reg).1.filter isTerminalPersist).length = 1 ∧
    ((processWorkflow env reg).1.filter isTerminalStatusPublish).length = 1 ∧
    (∀ m, bodyFailure env = some m →
      (processWorkflow env reg).1.filter isTerminalPersist =
        [.persistStatus .failed (some m)] ∧
      (processWorkflow env reg).1.filter isTerminalStatusPublish =
        [.publishStatus ⟨"status-update", "failed", env.ts, some m⟩]) := by
  obtain ⟨sid, ce, sess, ag, cdx, cc, fe, fr, dir, ws, ts⟩ := env
  subst hws
  cases ce with
  | true =>
      simp [processWorkflow, workflowBody, bodyFailure, updateSessionStatus,
        isTerminalPersist, isTerminalStatusPublish, SessionStatus.isTerminal,
        SessionStatus.value]
  | false =>
      cases sess with
      | none =>
          simp [processWorkflow, workflowBody, bodyFailure, updateSessionStatus,
            isTerminalPersist, isTerminalStatusPublish, SessionStatus.isTerminal,
            SessionStatus.value]
      | some s =>
          by_cases hj : isJobRequirement s.requirement = true
          · cases hE : extractJobId s.requirement with
            | none =>
                simp [processWorkflow, workflowBody, processJobRequirements,
                  bodyFailure, hj, hE, updateSessionStatus, isTerminalPersist,
                  isTerminalStatusPublish, SessionStatus.isTerminal,
                  SessionStatus.value]
            | some jid =>
                cases hT : extractToolReq s.requirement with
                | none =>
                    simp [processWorkflow, workflowBody, processJobRequirements,
                      bodyFailure, hj, hE, hT, updateSessionStatus,
                      isTerminalPersist, isTerminalStatusPublish,
                      SessionStatus.isTerminal, SessionStatus.value]
                | some tseg =>
                    cases hS : extractStructReq s.requirement with
                    | none =>
                        simp [processWorkflow, workflowBody,
                          processJobRequirements, bodyFailure, hj, hE, hT, hS,
                          updateSessionStatus, isTerminalPersist,
                          isTerminalStatusPublish, SessionStatus.isTerminal,
                          SessionStatus.value]
                    | some seg =>
                        cases hP : parseStructList seg with
                        | none =>
                            simp [processWorkflow, workflowBody,
                              processJobRequirements, bodyFailure, hj, hE, hT,
                              hS, hP, updateSessionStatus, isTerminalPersist,
                              isTerminalStatusPublish, SessionStatus.isTerminal,
                              SessionStatus.value]
                        | some reqs =>
                            cases cc with
                            | true =>
                                simp [processWorkflow, workflowBody,
                                  processJobRequirements, generateTools,
                                  bodyFailure, hj, hE, hT, hS, hP,
                                  updateSessionStatus, isTerminalPersist,
                                  isTerminalStatusPublish,
                                  SessionStatus.isTerminal, SessionStatus.value]
                            | false =>
                                by_cases hs :
                                  (executeCodexImplement (combinedToolName jid)
                                    dir cdx fe).success = true
                                · have herr := executeCodexImplement_success_error
                                    (combinedToolName jid) dir cdx fe hs
                                  simp [processWorkflow, workflowBody,
                                    processJobRequirements, generateTools,
                                    bodyFailure, hj, hE, hT, hS, hP, hs, herr,
                                    updateSessionStatus, notifyOther,
                                    isTerminalPersist, isTerminalStatusPublish,
                                    SessionStatus.isTerminal,
                                    SessionStatus.value]
                                · rw [Bool.not_eq_true] at hs
                                  simp [processWorkflow, workflowBody,
                                    processJobRequirements, generateTools,
                                    bodyFailure, hj, hE, hT, hS, hP, hs,
                                    updateSessionStatus, isTerminalPersist,
                                    isTerminalStatusPublish,
                                    SessionStatus.isTerminal,
                                    SessionStatus.value]
          · rw [Bool.not_eq_true] at hj
            cases ag <;>
              simp [processWorkflow, workflowBody, processWithAgent,
                bodyFailure, hj, updateSessionStatus, notifyOther,
                isTerminalPersist, isTerminalStatusPublish,
                SessionStatus.isTerminal, SessionStatus.value]

/-- C2 witness: a concrete failing run (agent reports an error, websocket
configured) performs exactly one terminal `failed` write with exactly the
propagated message and one matching publish. -/
theorem c2_errors_one_terminal_transition_witness :
    ((processWorkflow
        ⟨"s1", false, some ⟨"plain requirement", .pending, none, []⟩,
          .fail "boom", .finishes 0 "" "", false, true, none, "tools", true,
          5⟩ ["s1"]).1.filter isTerminalPersist).length = 1 ∧
    ((processWorkflow
        ⟨"s1", false, some ⟨"plain requirement", .pending, none, []⟩,
          .fail "boom", .finishes 0 "" "", false, true, none, "tools", true,
          5⟩ ["s1"]).1.filter isTerminalPersist) =
      [.persistStatus .failed (some "Agent processing failed: boom")] := by
  have h := c2_errors_one_terminal_transition
    ⟨"s1", false, some ⟨"plain requirement", .pending, none, []⟩, .fail "boom",
      .finishes 0 "" "", false, true, none, "tools", true, 5⟩ ["s1"] rfl
  exact ⟨h.1, (h.2.2 "Agent processing failed: boom" (by decide)).1⟩

/-- C1 counterexample: `cancel_session` itself writes `failed` with
`"Cancelled: User cancelled"` (not `"Workflow cancelled"`); in the interleaving
where that write lands after the cancelled task's own handler write, the
session ends `failed` with a message different from `"Workflow cancelled"`,
refuting the claim that the final message is always exactly
`"Workflow cancelled"`. -/
theorem c1_counterexample_cancel_message_race :
    (applyActions ⟨"plain requirement", .pending, none, []⟩
        ((processWorkflow
            ⟨"s1", false, some ⟨"plain requirement", .pending, none, []⟩,
              .cancelledDuring, .finishes 0 "" "", false, true, none, "tools",
              true, 0⟩ ["s1"]).1 ++
          (cancelSession true ["s1"] "s1" "User cancelled" true).1)).status =
      .failed ∧
    (applyActions ⟨"plain requirement", .pending, none, []⟩
        ((processWorkflow
            ⟨"s1", false, some ⟨"plain requirement", .pending, none, []⟩,
              .cancelledDuring, .finishes 0 "" "", false, true, none, "tools",
              true, 0⟩ ["s1"]).1 ++
          (cancelSession true ["s1"] "s1" "User cancelled" true).1)).error =
      some "Cancelled: User cancelled" ∧
    some "Cancelled: User cancelled" ≠ some "Workflow cancelled" := by
  exact ⟨rfl, rfl, by decide⟩

theorem applyActions_append (s : SessionRec) (a b : List Action) :
    applyActions s (a ++ b) = applyActions (applyActions s a) b :=
  List.foldl_append _ _ _ _

theorem applyActions_update (s : SessionRec) (ws : Bool) (ts : Nat)
    (st : SessionStatus) (err : Option String) :
    applyActions s (updateSessionStatus ws ts st err) =
      { s with status := st, error := err } := by
  cases ws <;> rfl

theorem applyActions_cancel (s : SessionRec) (ex : Bool) (reg : List String)
    (sid reason : String) (ws : Bool) :
    applyActions s (cancelSession ex reg sid reason ws).1 =
      { s with status := .failed, error := some ("Cancelled: " ++ reason) } := by
  cases ex <;> cases ws <;> rfl

/-- C1 amended: whenever the task body observes cancellation — at the initial
session lookup, at the agent await of the plain path, or at the codex await of
the job path (`(workflowBody env).2 = .cancelledEnd`) — the session ends in
the terminal `failed` status in both orders of the two concurrent failure
writes; the task handler's transition carries exactly `"Workflow cancelled"`,
`cancel_session`'s own write carries `"Cancelled: \x7breason\x7d"`, so the
final message is one of those two and is exactly `"Workflow cancelled"`
precisely when the handler's write lands last. -/
theorem c1_cancelled_session_ends_failed (env : WorkflowEnv) (s0 : SessionRec)
    (reason : String) (reg : List String) (wsC : Bool) (handlerLast : Bool)
    (hc : (workflowBody env).2 = .cancelledEnd) :
    (applyActions s0
        (if handlerLast then
          (cancelSession true reg env.sessionId reason wsC).1 ++
            (processWorkflow env reg).1
        else
          (processWorkflow env reg).1 ++
            (cancelSession true reg env.sessionId reason wsC).1)).status =
      .failed ∧
    ((applyActions s0
        (if handlerLast then
          (cancelSession true reg env.sessionId reason wsC).1 ++
            (processWorkflow env reg).1
        else
          (processWorkflow env reg).1 ++
            (cancelSession true reg env.sessionId reason wsC).1)).error =
        some "Workflow cancelled" ∨
      (applyActions s0
        (if handlerLast then
          (cancelSession true reg env.sessionId reason wsC).1 ++
            (processWorkflow env reg).1
        else
          (processWorkflow env reg).1 ++
            (cancelSession true reg env.sessionId reason wsC).1)).error =
        some ("Cancelled: " ++ reason)) ∧
    (handlerLast = true →
      (applyActions s0
        ((cancelSession true reg env.sessionId reason wsC).1 ++
          (processWorkflow env reg).1)).error = some "Workflow cancelled") := by
  have hpw : (processWorkflow env reg).1 =
      (workflowBody env).1 ++
        updateSessionStatus env.hasWs env.ts .failed (some "Workflow cancelled") := by
    simp [processWorkflow, hc]
  cases handlerLast with
  | false =>
      rw [if_neg (by simp)]
      rw [applyActions_append, applyActions_cancel]
      exact ⟨rfl, Or.inr rfl, by simp⟩
  | true =>
      rw [if_pos rfl]
      rw [hpw, applyActions_append, applyActions_append, applyActions_update]
      exact ⟨rfl, Or.inl rfl, fun _ => rfl⟩

/-- C1 amended witness: a concrete job-path session cancelled at the codex
await (the endpoint's normal case), with the handler's write landing last,
ends `failed` with exactly `"Workflow cancelled"`. -/
theorem c1_cancelled_session_ends_failed_witness :
    (applyActions ⟨"base", .pending, none, []⟩
        ((cancelSession true ["s1"] "s1" "User cancelled" true).1 ++
          (processWorkflow
            ⟨"s1", false,
              some ⟨buildRequirement "job_abcd1234"
                [⟨"sum two numbers", "two integers", "their sum"⟩], .pending,
                none, []⟩, .ok, .finishes 0 "" "", true, true, none, "tools",
              true, 0⟩ ["s1"]).1)).status = .failed ∧
    (applyActions ⟨"base", .pending, none, []⟩
        ((cancelSession true ["s1"] "s1" "User cancelled" true).1 ++
          (processWorkflow
            ⟨"s1", false,
              some ⟨buildRequirement "job_abcd1234"
                [⟨"sum two numbers", "two integers", "their sum"⟩], .pending,
                none, []⟩, .ok, .finishes 0 "" "", true, true, none, "tools",
              true, 0⟩ ["s1"]).1)).error = some "Workflow cancelled" := by
  have h := c1_cancelled_session_ends_failed
    ⟨"s1", false,
      some ⟨buildRequirement "job_abcd1234"
        [⟨"sum two numbers", "two integers", "their sum"⟩], .pending, none,
        []⟩, .ok, .finishes 0 "" "", true, true, none, "tools", true, 0⟩
    ⟨"base", .pending, none, []⟩ "User cancelled" ["s1"] true true (by decide)
  refine ⟨?_, h.2.2 rfl⟩
  have h1 := h.1
  rw [if_pos rfl] at h1
  exact h1

theorem takeWhile_append_all {p : Char → Bool} (a b : List Char)
    (ha : ∀ c ∈ a, p c = true)
    (hb : ∀ c, b.head? = some c → p c = false) :
    (a ++ b).takeWhile p = a := by
  induction a with
  | nil =>
      cases b with
      | nil => rfl
      | cons c bs => simp [List.takeWhile_cons, hb c rfl]
  | cons x a ih =>
      have hx := ha x (by simp)
      simp only [List.cons_append, List.takeWhile_cons, hx, if_true]
      rw [ih (fun c hc => ha c (by simp [hc]))]

theorem expectLit_append (p r : List Char) : expectLit p (p ++ r) = some r := by
  simp [expectLit, isPrefixOf_append_self, List.drop_left]

theorem takeStr_append (s r : List Char) (h : '\'' ∉ s) :
    takeStr (s ++ '\'' :: r) = some (s, r) := by
  induction s with
  | nil => simp [takeStr]
  | cons c s ih =>
      have hc : ¬c = '\'' := fun e => h (e ▸ List.mem_cons_self c s)
      have hs : '\'' ∉ s := fun m => h (List.mem_cons_of_mem _ m)
      simp [takeStr, hc, ih hs]

theorem digitChar_mod_ten_isDigit (n : Nat) :
    (Nat.digitChar (n % 10)).isDigit = true := by
  have h10 : n % 10 = 0 ∨ n % 10 = 1 ∨ n % 10 = 2 ∨ n % 10 = 3 ∨ n % 10 = 4 ∨
      n % 10 = 5 ∨ n % 10 = 6 ∨ n % 10 = 7 ∨ n % 10 = 8 ∨ n % 10 = 9 := by
    omega
  rcases h10 with h | h | h | h | h | h | h | h | h | h <;> rw [h] <;> decide

theorem toDigitsCore_digits (fuel : Nat) :
    ∀ (n : Nat) (acc : List Char), (∀ c ∈ acc, c.isDigit = true) →
      ∀ c ∈ Nat.toDigitsCore 10 fuel n acc, c.isDigit = true := by
  induction fuel with
  | zero =>
      intro n acc hacc c hc
      rw [Nat.toDigitsCore] at hc
      exact hacc c hc
  | succ fuel ih =>
      intro n acc hacc c hc
      rw [Nat.toDigitsCore] at hc
      by_cases h0 : n / 10 = 0
      · simp only [h0, if_true] at hc
        rcases List.mem_cons.mp hc with hc | hc
        · subst hc; exact digitChar_mod_ten_isDigit n
        · exact hacc c hc
      · simp only [h0, if_false] at hc
        refine ih (n / 10) (Nat.digitChar (n % 10) :: acc) ?_ c hc
        intro d hd
        rcases List.mem_cons.mp hd with hd | hd
        · subst hd; exact digitChar_mod_ten_isDigit n
        · exact hacc d hd

theorem repr_digits (n : Nat) : ∀ c ∈ (Nat.repr n).data, c.isDigit = true := by
  intro c hc
  exact toDigitsCore_digits (n + 1) n [] (by simp) c hc

theorem quote_not_mem_toolName (k : Nat) :
    '\'' ∉ ("tool_" ++ toString k).data := by
  intro h
  rw [String.data_append] at h
  rcases List.mem_append.mp h with h | h
  · exact absurd h (by decide)
  · have hd := repr_digits k '\'' h
    exact absurd hd (by decide)

theorem extractJobIdAux_at (rest : List Char)
    (h : rest.takeWhile isHexLower ≠ []) :
    extractJobIdAux (jobIdPat ++ rest) =
      some ("job_".data ++ rest.takeWhile isHexLower) := by
  have step : extractJobIdAux (jobIdPat ++ rest) =
      if jobIdPat.isPrefixOf (jobIdPat ++ rest) then
        (if ((jobIdPat ++ rest).drop jobIdPat.length).takeWhile isHexLower = []
          then extractJobIdAux ("ob ID: job_".data ++ rest)
          else some ("job_".data ++
            ((jobIdPat ++ rest).drop jobIdPat.length).takeWhile isHexLower))
      else extractJobIdAux ("ob ID: job_".data ++ rest) := rfl
  rw [step, isPrefixOf_append_self, List.drop_left]
  simp [h]

theorem extractStructReqAux_skip (X Y : List Char)
    (h : ∀ i, i < X.length → structPat.isPrefixOf ((X ++ Y).drop i) = false) :
    extractStructReqAux (X ++ Y) = extractStructReqAux Y := by
  induction X with
  | nil => simp
  | cons c X ih =>
      have h0 : structPat.isPrefixOf (c :: (X ++ Y)) = false := by
        have := h 0 (by simp)
        simpa using this
      rw [List.cons_append, extractStructReqAux]
      rw [h0]
      simp only [Bool.false_eq_true, if_false]
      exact ih fun i hi => by
        have := h (i + 1) (by simpa using Nat.succ_lt_succ hi)
        simpa using this

theorem extractStructReqAux_at (G : List Char) (h1 : G.head? = some '[')
    (h2 : 2 ≤ G.length) (h3 : G.getLast? = some ']') :
    extractStructReqAux (structPat ++ G) = some G := by
  have step : extractStructReqAux (structPat ++ G) =
      if structPat.isPrefixOf (structPat ++ G) then
        (if ((structPat ++ G).drop structPat.length).head? = some '[' ∧
            2 ≤ ((structPat ++ G).drop structPat.length).length ∧
            ((structPat ++ G).drop structPat.length).getLast? = some ']' then
          some ((structPat ++ G).drop structPat.length)
        else extractStructReqAux ("tructured Requirements: ".data ++ G))
      else extractStructReqAux ("tructured Requirements: ".data ++ G) := rfl
  rw [step, isPrefixOf_append_self, List.drop_left]
  simp [h1, h2, h3]

theorem buildRequirement_data_decomp (hex : String) (reqs : List ToolReqInput) :
    (buildRequirement ("job_" ++ hex) reqs).data =
      jobIdPat ++ (hex.data ++
        (" - Generate " ++ toString reqs.length ++
          " tools - Tool Requirements: " ++ toolListRepr reqs ++
          " - Structured Requirements: " ++ structListRepr reqs).data) := by
  have hsplit : jobIdPat = "Job ID: ".data ++ "job_".data := by decide
  simp [buildRequirement, String.data_append, hsplit, List.append_assoc]

theorem buildRequirement_data_struct (jobId : String) (reqs : List ToolReqInput) :
    (buildRequirement jobId reqs).data =
      (reqBefore jobId reqs).data ++ (structPat ++ (structListRepr reqs).data) := by
  have hsplit : (" - Structured Requirements: ").data = " - ".data ++ structPat := by
    decide
  simp only [buildRequirement, reqBefore, String.data_append, hsplit,
    List.append_assoc]
  rfl

theorem extractJobId_build (hex : String) (reqs : List ToolReqInput)
    (h1 : hex.data ≠ []) (h2 : ∀ c ∈ hex.data, isHexLower c = true) :
    extractJobId (buildRequirement ("job_" ++ hex) reqs) =
      some ("job_" ++ hex) := by
  unfold extractJobId
  rw [buildRequirement_data_decomp]
  have hhead :
      (" - Generate " ++ toString reqs.length ++
        " tools - Tool Requirements: " ++ toolListRepr reqs ++
        " - Structured Requirements: " ++ structListRepr reqs).data.head? =
        some ' ' := rfl
  have htw := takeWhile_append_all hex.data
    (" - Generate " ++ toString reqs.length ++
      " tools - Tool Requirements: " ++ toolListRepr reqs ++
      " - Structured Requirements: " ++ structListRepr reqs).data h2
    (fun c hc => by
      rw [hhead] at hc
      cases hc
      decide)
  rw [extractJobIdAux_at _ (by rw [htw]; exact h1)]
  rw [htw]
  rfl

theorem extractStructReq_build (jobId : String) (reqs : List ToolReqInput)
    (hno : ∀ i, i < (reqBefore jobId reqs).data.length →
      structPat.isPrefixOf ((buildRequirement jobId reqs).data.drop i) = false) :
    extractStructReq (buildRequirement jobId reqs) =
      some (structListRepr reqs) := by
  unfold extractStructReq
  rw [buildRequirement_data_struct] at hno ⊢
  rw [extractStructReqAux_skip _ _ hno]
  rw [extractStructReqAux_at]
  · rfl
  · rfl
  · show 2 ≤ ('[' :: (structItemsChars 1 reqs ++ [']'])).length
    simp
  · show ('[' :: (structItemsChars 1 reqs ++ [']'])).getLast? = some ']'
    rw [show '[' :: (structItemsChars 1 reqs ++ [']']) =
      ('[' :: structItemsChars 1 reqs) ++ [']'] from rfl]
    exact List.getLast?_concat _

theorem string_mk_data (s : String) : String.mk s.data = s := rfl

theorem quote_data (X : List Char) : "'".data ++ X = '\'' :: X := rfl

theorem textSafe_no_quote {s : String} (h : textSafe s) : '\'' ∉ s.data :=
  fun m => ((h '\'' m).1) rfl

theorem parseItem_repr (name d i o : String) (rest : List Char)
    (hn : '\'' ∉ name.data) (hd : '\'' ∉ d.data) (hi : '\'' ∉ i.data)
    (ho : '\'' ∉ o.data) :
    parseItem (structItemChars name d i o ++ rest) =
      some (⟨name, d, i, o⟩, rest) := by
  simp [structItemChars, List.append_assoc, List.cons_append,
    List.singleton_append, parseItem, expectLit, List.isPrefixOf,
    takeStr_append _ _ hn, takeStr_append _ _ hd, takeStr_append _ _ hi,
    takeStr_append _ _ ho, string_mk_data]

theorem structItems_length (k : Nat) (l : List ToolReqInput) :
    l.length ≤ (structItemsChars k l).length := by
  induction l generalizing k with
  | nil => simp [structItemsChars]
  | cons t ts ih =>
      cases ts with
      | nil => simp [structItemsChars, structItemChars]
      | cons u us =>
          have h := ih (k + 1)
          simp only [structItemsChars, structItemChars, List.length_append,
            List.length_cons] at h ⊢
          omega

theorem parseItems_repr (l : List ToolReqInput) :
    ∀ (k fuel : Nat), l ≠ [] → (∀ t ∈ l, reqSafe t) → l.length ≤ fuel →
      parseItems fuel (structItemsChars k l ++ [']']) =
        some (structuredFrom k l, [']']) := by
  induction l with
  | nil => intro k fuel h; exact absurd rfl h
  | cons t ts ih =>
      intro k fuel _ hsafe hf
      obtain ⟨f, rfl⟩ : ∃ f, fuel = f + 1 := ⟨fuel - 1, by simp at hf; omega⟩
      obtain ⟨hd, hi, ho⟩ := hsafe t (by simp)
      have hd' := textSafe_no_quote hd
      have hi' := textSafe_no_quote hi
      have ho' := textSafe_no_quote ho
      have hn' := quote_not_mem_toolName k
      cases ts with
      | nil =>
          rw [parseItems]
          simp only [structItemsChars, List.append_nil]
          rw [parseItem_repr _ _ _ _ _ hn' hd' hi' ho']
          simp [structuredFrom, List.isPrefixOf]
      | cons u us =>
          rw [parseItems]
          simp only [structItemsChars, List.append_assoc]
          rw [parseItem_repr _ _ _ _ _ hn' hd' hi' ho']
          have ihx := ih (k + 1) f (by simp)
            (fun x hx => hsafe x (by simp [hx])) (by simp at hf ⊢; omega)
          simp only [structItemsChars, List.append_assoc, List.cons_append,
            List.nil_append] at ihx
          simp only [List.cons_append, List.nil_append]
          simp [List.isPrefixOf, List.drop_succ_cons, List.drop_zero]
          rw [ihx]
          simp [structuredFrom]

theorem parseStructList_repr (reqs : List ToolReqInput)
    (hsafe : ∀ t ∈ reqs, reqSafe t) :
    parseStructList (structListRepr reqs) = some (structuredOf reqs) := by
  cases reqs with
  | nil => rfl
  | cons t ts =>
      have step : parseStructList (structListRepr (t :: ts)) =
          (if structItemsChars 1 (t :: ts) ++ [']'] = [']'] then some []
          else
            match
              parseItems (structItemsChars 1 (t :: ts) ++ [']']).length
                (structItemsChars 1 (t :: ts) ++ [']']) with
            | some (items, [']']) => some items
            | _ => none) := rfl
      have hlen : (t :: ts).length ≤ (structItemsChars 1 (t :: ts)).length :=
        structItems_length 1 (t :: ts)
      have hne : structItemsChars 1 (t :: ts) ++ [']'] ≠ [']'] := by
        intro e
        have h1 := congrArg List.length e
        simp only [List.length_append, List.length_cons, List.length_nil] at h1
        simp only [List.length_cons] at hlen
        omega
      rw [step, if_neg hne]
      rw [parseItems_repr (t :: ts) 1 _ (by simp) hsafe
        (by simp only [List.length_append, List.length_cons, List.length_nil]
            simp only [List.length_cons] at hlen
            omega)]
      rfl

theorem containsSub_append_self (p r : List Char) (hp : p ≠ []) :
    containsSub p (p ++ r) = true := by
  cases p with
  | nil => exact absurd rfl hp
  | cons a l =>
      rw [List.cons_append, containsSub]
      have : (a :: l).isPrefixOf (a :: (l ++ r)) = true :=
        isPrefixOf_append_self (a :: l) r
      simp [this]

theorem findByJobId_build (jobId : String) (st : SessionStatus)
    (err : Option String) (tools : List (String × String))
    (reqs : List ToolReqInput) :
    findByJobId [⟨buildRequirement jobId reqs, st, err, tools⟩] jobId =
      some ⟨buildRequirement jobId reqs, st, err, tools⟩ := by
  have hdata : (buildRequirement jobId reqs).data =
      ("Job ID: " ++ jobId).data ++
        (" - Generate " ++ toString reqs.length ++
          " tools - Tool Requirements: " ++ toolListRepr reqs ++
          " - Structured Requirements: " ++ structListRepr reqs).data := by
    simp [buildRequirement, String.data_append, List.append_assoc]
  have hne : ("Job ID: " ++ jobId).data.map Char.toLower ≠ [] := by
    rw [String.data_append]
    simp
  have hpred : containsSub (("Job ID: " ++ jobId).data.map Char.toLower)
      ((buildRequirement jobId reqs).data.map Char.toLower) = true := by
    rw [hdata, List.map_append]
    exact containsSub_append_self _ _ hne
  simp at hpred
  simp [findByJobId, List.find?, hpred]

/-- C10 counterexample: for the submitted requirement whose description text is
`"Structured Requirements: [1]"`, the job id is still recovered, but the
structured-requirements regex matches at the first (user-text) occurrence of
the sentinel, extracts a garbled segment on which `literal_eval` fails, so the
round trip does not return the original structured requirements and the
workflow fails with the parse error. -/
theorem c10_counterexample_embed_extract_breaks :
    extractJobId (buildRequirement "job_abcd1234"
        [⟨"Structured Requirements: [1]", "i", "o"⟩]) = some "job_abcd1234" ∧
    (extractStructReq (buildRequirement "job_abcd1234"
        [⟨"Structured Requirements: [1]", "i", "o"⟩])).map parseStructList =
      some none ∧
    some (none : Option (List StructReq)) ≠
      some (some (structuredOf [⟨"Structured Requirements: [1]", "i", "o"⟩])) ∧
    bodyFailure
        ⟨"s1", false,
          some ⟨buildRequirement "job_abcd1234"
            [⟨"Structured Requirements: [1]", "i", "o"⟩], .pending, none, []⟩,
          .ok, .finishes 0 "" "", false, true, some "code", "tools", true, 0⟩ =
      some "Could not parse structured requirements" := by
  exact ⟨by decide, by decide, by decide, by decide⟩

/-- C10 amended: for every job whose requirement texts are printable ASCII
without quotes or backslashes and do not produce an occurrence of the sentinel
`"Structured Requirements: "` ahead of the structured section, the embedded
metadata round-trips exactly: the job-id regex recovers the job id, the
structured-requirements regex recovers precisely the serialized structured
list, `literal_eval` on it returns the original structured requirements, and
the job-id lookup finds the stored session. -/
theorem c10_embed_extract_roundtrip (hex : String) (reqs : List ToolReqInput)
    (h1 : hex.data ≠ []) (h2 : ∀ c ∈ hex.data, isHexLower c = true)
    (hsafe : ∀ t ∈ reqs, reqSafe t)
    (hno : ∀ i, i < (reqBefore ("job_" ++ hex) reqs).data.length →
      structPat.isPrefixOf
        ((buildRequirement ("job_" ++ hex) reqs).data.drop i) = false)
    (st : SessionStatus) (err : Option String) (tools : List (String × String)) :
    extractJobId (buildRequirement ("job_" ++ hex) reqs) =
      some ("job_" ++ hex) ∧
    extractStructReq (buildRequirement ("job_" ++ hex) reqs) =
      some (structListRepr reqs) ∧
    parseStructList (structListRepr reqs) = some (structuredOf reqs) ∧
    findByJobId [⟨buildRequirement ("job_" ++ hex) reqs, st, err, tools⟩]
        ("job_" ++ hex) =
      some ⟨buildRequirement ("job_" ++ hex) reqs, st, err, tools⟩ :=
  ⟨extractJobId_build hex reqs h1 h2,
    extractStructReq_build _ reqs hno,
    parseStructList_repr reqs hsafe,
    findByJobId_build _ st err tools reqs⟩

/-- C10 amended witness: the round trip holds at a concrete benign job
(one requirement, description "sum two numbers"). -/
theorem c10_embed_extract_roundtrip_witness :
    extractJobId (buildRequirement ("job_" ++ "abcd1234")
        [⟨"sum two numbers", "two integers", "their sum"⟩]) =
      some ("job_" ++ "abcd1234") ∧
    parseStructList
        (structListRepr [⟨"sum two numbers", "two integers", "their sum"⟩]) =
      some (structuredOf [⟨"sum two numbers", "two integers", "their sum"⟩]) := by
  have h := c10_embed_extract_roundtrip "abcd1234"
    [⟨"sum two numbers", "two integers", "their sum"⟩]
    (by decide) (by decide) (by decide) (by decide) .pending none []
  exact ⟨h.1, h.2.2.1⟩

end AgentBrowser

